import Mathlib

/-!
Verification development for the lgtd-suite repository: a shallow embedding
of the daemon's state manager, authentication handler, and the dbadm dump
tool, together with spec-modelled definitions for library components whose
sources are not part of the snapshot (SyncableDatabase.is_gapless,
LeakyBucket, CommandCipher, Database, Command).

Python strings are embedded as Lean `String` (a wrapper around `List Char`);
Python's lexicographic string comparison is embedded as `ltList` over the
underlying character lists.
-/

/-- Lexicographic strict order on character lists, matching Python's `<`
on strings: compare code points position by position; a proper prefix is
smaller. -/
def ltList : List Char → List Char → Bool
  | [], [] => false
  | [], _ :: _ => true
  | _ :: _, [] => false
  | a :: as, b :: bs => if a < b then true else if b < a then false else ltList as bs

/-- Embedding of `StateManager._display_tag` (lgtd/provider/daemon.py).
`if not tag: return 'inbox'`; `if tag.startswith('$'): return 'tickler' if
tag[1:] > ref_date else 'inbox'`; otherwise the tag itself. -/
def display_tag (tag ref_date : String) : String :=
  match tag.data with
  | [] => "inbox"
  | c :: rest => if c = '$' then (if ltList ref_date.data rest then "tickler" else "inbox") else tag

/-- Association-list lookup with default 0, matching Python
`defaultdict(int)` read access. -/
def lookupD (m : List (String × Nat)) (k : String) : Nat :=
  match m with
  | [] => 0
  | (k', v) :: rest => if k' = k then v else lookupD rest k

/-- Modelled from the spec: `SyncableDatabase.is_gapless` (lgtd/lib/db.py) is
not in the snapshot; only its acceptance test (lgtd/lib/tests/test_db.py) is.
Per spec section 4.3 and the section 8 vectors: a remote summary is gapless
when every remote-reported offset does not exceed the locally consumed offset
for that writer, a writer unknown locally counting as offset 0 (so a locally
unknown writer is safe only at remote offset exactly 0). This is the minimal
rule satisfying every literal acceptance vector. -/
def is_gapless (local_offs : List (String × Nat)) (remote_data : List (String × Nat × String)) : Bool :=
  remote_data.all (fun e => e.2.1 ≤ lookupD local_offs e.1)

/-- One task item of the projected state: `{'title': ..., 'tag': ...}`. -/
structure Item where
  title : String
  tag : String
deriving DecidableEq, Repr

/-- The projected application state of `StateManager.__init__`: the fixed
tag ordering and the insertion-ordered item mapping (`OrderedDict` embedded
as an association list in insertion order). -/
structure State where
  tag_order : List String
  items : List (String × Item)
deriving DecidableEq, Repr

/-- The fixed tag ordering installed by `StateManager.__init__`. -/
def default_tag_order : List String := ["inbox", "todo", "ref", "someday", "tickler"]

/-- Python `tag.startswith('$')` for a single-character prefix. -/
def startsWithDollar (s : String) : Bool :=
  match s.data with
  | '$' :: _ => true
  | _ => false

/-- One rendered item of the view built by `render_state`: `id`, `title`,
and the optional `scheduled` date copied from a schedule-marker tag. -/
structure RItem where
  id : String
  title : String
  scheduled : Option String
deriving DecidableEq, Repr

/-- The view returned by `render_state`: per-tag counts in tag order, the
index of the active tag, and the items listed under the active tag. -/
structure View where
  tags : List (String × Nat)
  active_tag : Nat
  items : List RItem
deriving DecidableEq, Repr

/-- The item dict built inside the `render_state` loop for one matching
item. -/
def render_item (id : String) (it : Item) : RItem :=
  { id := id, title := it.title,
    scheduled := if startsWithDollar it.tag then some (it.tag.drop 1) else none }

/-- The `items.append(data)` part of the `render_state` loop: items whose
resolved display tag equals the active tag, in insertion order. -/
def render_items (today active : String) : List (String × Item) → List RItem
  | [] => []
  | (id, it) :: rest =>
      if display_tag it.tag today = active then
        render_item id it :: render_items today active rest
      else
        render_items today active rest

/-- The `counts[actual_tag]` accumulator of `render_state`, read off for one
tag: the number of items whose resolved display tag equals `t`. -/
def count_tag (today t : String) (items : List (String × Item)) : Nat :=
  (items.filter (fun p => display_tag p.2.tag today = t)).length

/-- Python `list.index` restricted to the case where the element occurs
(the only case `render_state` reaches after coercing the active tag). -/
def list_index (x : String) : List String → Nat
  | [] => 0
  | y :: ys => if y = x then 0 else list_index x ys + 1

/-- Embedding of `StateManager.render_state` (lgtd/provider/daemon.py);
`date.today()` is passed explicitly as `today`. An active tag outside
`tag_order` is coerced to `'inbox'`; counts are taken per tag of
`tag_order`; only items whose resolved display tag equals the active tag
are listed. -/
def render_state (st : State) (today active0 : String) : View :=
  let active := if st.tag_order.contains active0 then active0 else "inbox"
  { tags := st.tag_order.map (fun t => (t, count_tag today t st.items)),
    active_tag := list_index active st.tag_order,
    items := render_items today active st.items }

/-- The `render_state` method with the receiver state passed explicitly and
returned: the method body only reads `self.state`, so the call returns the
view together with the untouched state. -/
def render_state_call (st : State) (today active0 : String) : View × State :=
  (render_state st today active0, st)

/-- A concrete state with the default tag ordering, used to instantiate
hypotheses of the render theorems. -/
def ex_state : State :=
  ⟨default_tag_order, [("1", ⟨"alpha", ""⟩), ("2", ⟨"beta", "todo"⟩), ("3", ⟨"gamma", "$2099-01-01"⟩)]⟩

/-- Modelled from the spec: lgtd/lib/commands.py is not in the snapshot.
Command variants per section 3: create item, update title, set or clear a
tag or schedule date (the schedule date is carried inside the tag value),
delete item. -/
inductive Command
  | item (id title : String)
  | set_title (id title : String)
  | set_tag (id tag : String)
  | delete (id : String)
deriving DecidableEq, Repr

/-- Modelled from the spec (section 4.4): creating an item inserts it at the
end of the insertion-ordered item mapping (an existing id is overwritten in
place, as a keyed insert into an ordered mapping); updating the title or tag
mutates the entry in place, preserving insertion order; deleting removes the
entry. -/
def apply_command : Command → State → State
  | Command.item id title, st =>
      if (st.items.lookup id).isSome then
        { st with items := st.items.map (fun p => if p.1 = id then (p.1, ⟨title, ""⟩) else p) }
      else
        { st with items := st.items ++ [(id, ⟨title, ""⟩)] }
  | Command.set_title id title, st =>
      { st with items := st.items.map fun p =>
          if p.1 = id then (p.1, { p.2 with title := title }) else p }
  | Command.set_tag id tag, st =>
      { st with items := st.items.map fun p =>
          if p.1 = id then (p.1, { p.2 with tag := tag }) else p }
  | Command.delete id, st =>
      { st with items := st.items.filter (fun p => !(p.1 == id)) }

/-- One durable record of a writer's segment: the byte length of its
ciphertext line, and the command the line decrypts and parses to. -/
structure Record where
  len : Nat
  cmd : Command
deriving DecidableEq, Repr

/-- Modelled from the spec: lgtd/lib/db/client.py and lgtd/lib/crypto.py are
not in the snapshot. The log store holds one append-only segment per writer
(section 4.1); decrypt-then-parse of a stored line is folded into the stored
`Record.cmd`, so reading yields decoded commands with writer and offset. -/
structure DbModel where
  segments : List (String × List Record)
deriving DecidableEq, Repr

/-- Durable length of a segment in record-boundary terms. -/
def seg_length (rs : List Record) : Nat := (rs.map Record.len).sum

/-- `get_offsets` per section 4.1: the current durable record-boundary
length of every known writer's segment. -/
def DbModel.get_offsets (db : DbModel) : List (String × Nat) :=
  db.segments.map (fun s => (s.1, seg_length s.2))

/-- The records of one segment whose start offset (running position from 0)
is at or beyond the reader's saved offset for that writer; saved offsets sit
at record boundaries per the section 3 invariant. -/
def read_seg (skip : Nat) : Nat → List Record → List (Command × Nat)
  | _, [] => []
  | pos, r :: rs => (if skip ≤ pos then [(r.cmd, pos)] else []) ++ read_seg skip (pos + r.len) rs

/-- `read_all` per section 4.1: for every known writer, every complete
record beyond the saved offset for that writer, in increasing offset order
within a writer. -/
def DbModel.read_all (db : DbModel) (offs : List (String × Nat)) : List (Command × String × Nat) :=
  (db.segments.map
    (fun s => (read_seg (lookupD offs s.1) 0 s.2).map (fun e => (e.1, s.1, e.2)))).flatten

/-- Association-list lookup returning `none` for a missing key. -/
def lookupO (m : List (String × Nat)) (k : String) : Option Nat :=
  match m with
  | [] => none
  | (k', v) :: rest => if k' = k then some v else lookupO rest k

/-- Python dict equality on offset maps: same key set and same values. A
missing key is not identified with a stored 0, matching
`defaultdict(int) == dict` semantics in the `offsets == self.offsets`
comparison of `notify`. -/
def dictEq (a b : List (String × Nat)) : Bool :=
  a.all (fun p => lookupO b p.1 == some p.2) && b.all (fun p => lookupO a p.1 == some p.2)

/-- The fields of `StateManager` that `notify` reads and writes: the
projected state and the saved per-writer offsets. -/
structure StateMgr where
  state : State
  offsets : List (String × Nat)
deriving DecidableEq, Repr

/-- Embedding of `StateManager.notify` (lgtd/provider/daemon.py): under the
shared lock, read the store's current offsets; if they equal the saved
offsets, return False applying nothing; otherwise decrypt, parse and apply
every newly visible command in read order, save the new offsets, and return
True. -/
def notify (db : DbModel) (sm : StateMgr) : StateMgr × Bool :=
  let offs := db.get_offsets
  if dictEq offs sm.offsets then (sm, false)
  else
    let st := (db.read_all sm.offsets).foldl (fun s e => apply_command e.1 s) sm.state
    ({ state := st, offsets := offs }, true)

/-- The events of one `push_commands` call: the single lock acquisition of
the `with` statement, one write per command, the release on exit. -/
inductive PushEv
  | lock_acquire
  | lock_release
  | write (offset : Nat) (line : String)
deriving DecidableEq, Repr

/-- The write loop of `StateManager.push_commands`: each command is
encrypted at the append handle's current position (`f.tell()`), the
ciphertext line is written, and the position advances by the line's
length. -/
def pushWrites (cipher : String → String → Nat → String) (app_id : String) :
    Nat → List String → List (Nat × String)
  | _, [] => []
  | pos, c :: cs =>
      let line := cipher c app_id pos
      (pos, line) :: pushWrites cipher app_id (pos + line.length) cs

/-- Embedding of `StateManager.push_commands` (lgtd/provider/daemon.py) as
its event trace: one lock acquisition for the whole call, the writes in
order, one release on exit. -/
def push_commands (cipher : String → String → Nat → String) (app_id : String)
    (pos0 : Nat) (commands : List String) : List PushEv :=
  PushEv.lock_acquire ::
    ((pushWrites cipher app_id pos0 commands).map (fun w => PushEv.write w.1 w.2)
      ++ [PushEv.lock_release])

/-- A store whose only segment holds one record whose command is a no-op on
`ex_mgr`'s state: it sets the title of item "i" to the title it already
has. -/
def ex_db : DbModel := ⟨[("A", [⟨10, Command.set_title "i" "t"⟩])]⟩

/-- A manager that has consumed nothing, with item "i" already titled
"t". -/
def ex_mgr : StateMgr := ⟨⟨default_tag_order, [("i", ⟨"t", ""⟩)]⟩, []⟩

/-- An empty store and a fresh manager: offsets agree, nothing to apply. -/
def ex_db_empty : DbModel := ⟨[]⟩

/-- A fresh manager with no items and no saved offsets. -/
def ex_mgr_empty : StateMgr := ⟨⟨default_tag_order, []⟩, []⟩

/-- A cipher stand-in producing a fixed two-byte line for every plaintext. -/
def ex_cipher : String → String → Nat → String := fun _ _ _ => "x\n"

/-- Modelled from the spec: lgtd/lib/bucket.py is not in the snapshot.
Section 4.5 leaky bucket: refill time window, capacity, current level, and
the time of the last consumption. -/
structure LeakyBucket where
  window : Nat
  capacity : Nat
  level : Nat
  last : Nat
deriving DecidableEq, Repr

/-- Modelled from the spec (section 4.5): `consume` refills lazily from
elapsed wall-clock time (a full elapsed window restores the level up to
capacity), then succeeds, taking one unit, when the available level is
positive; otherwise it signals insufficiency (`none`), leaving the bucket
unchanged. -/
def LeakyBucket.consume (b : LeakyBucket) (now : Nat) : Option LeakyBucket :=
  let avail := if b.window ≤ now - b.last then b.capacity else b.level
  if 0 < avail then some { b with level := avail - 1, last := now } else none

/-- Hexadecimal value of one character, `none` for a non-hex character. -/
def hexVal (c : Char) : Option Nat :=
  if '0' ≤ c ∧ c ≤ '9' then some (c.toNat - '0'.toNat)
  else if 'a' ≤ c ∧ c ≤ 'f' then some (c.toNat - 'a'.toNat + 10)
  else if 'A' ≤ c ∧ c ≤ 'F' then some (c.toNat - 'A'.toNat + 10)
  else none

/-- Python `str.decode('hex')`: pairs of hex digits become bytes; an odd
length or a non-hex character fails (the `TypeError` caught by
`authenticate`). -/
def hexDecode : List Char → Option (List Nat)
  | [] => some []
  | [_] => none
  | a :: b :: rest =>
    match hexVal a, hexVal b, hexDecode rest with
    | some x, some y, some zs => some ((x * 16 + y) :: zs)
    | _, _, _ => none

/-- The per-connection fields of `GTDSocketHandler` that `authenticate`
reads and writes; the auth bucket is carried in the handler state so that
`consume` can update it. -/
structure Handler where
  authenticated : Bool
  nonce : String
  key : String
  bucket : LeakyBucket
deriving DecidableEq, Repr

/-- The order-relevant steps inside `authenticate`: the bucket consumption
and the MAC comparison. -/
inductive AuthEv
  | consume
  | mac_check
deriving DecidableEq, Repr

/-- Embedding of `GTDSocketHandler.authenticate` (lgtd/provider/daemon.py),
with the keyed-MAC function and the current time passed explicitly. The
Bool is `false` exactly when the Python method raises
`AuthenticationError` — rate-limit `Insufficient`, missing `mac` key
(`KeyError`), bad hex (`TypeError`), or MAC mismatch — and the trace
records the executed steps in order. An already authenticated connection
returns immediately. -/
def authenticate (hmacFn : String → String → List Nat) (now : Nat)
    (h : Handler) (mac : Option String) : Handler × Bool × List AuthEv :=
  if h.authenticated then (h, true, [])
  else
    match h.bucket.consume now with
    | none => (h, false, [AuthEv.consume])
    | some b =>
      let h1 := { h with bucket := b }
      match mac with
      | none => (h1, false, [AuthEv.consume])
      | some m =>
        match hexDecode m.data with
        | none => (h1, false, [AuthEv.consume])
        | some actual =>
          let ok := actual == hmacFn h.key h.nonce
          ({ h1 with authenticated := ok }, ok, [AuthEv.consume, AuthEv.mac_check])

/-- The literal `bad_credentials` reply of `on_message`. -/
def bad_credentials_msg : String := "\x7b\"msg\": \"bad_credentials\"\x7d"

/-- The literal `authenticated` reply of `on_message`. -/
def authenticated_msg : String := "\x7b\"msg\": \"authenticated\"\x7d"

/-- An incoming client message: the `msg` discriminator and the fields the
handler may read; `mac` is optional, matching the `KeyError` catch. -/
structure Msg where
  msg : String
  mac : Option String
  tag : String
  cmds : List String
deriving DecidableEq, Repr

/-- The externally visible actions of `on_message`: a literal reply, a
rendered-state reply for a tag, or a push of submitted commands. -/
inductive Effect
  | wrote (s : String)
  | wrote_state (tag : String)
  | pushed (cmds : List String)
deriving DecidableEq, Repr

/-- Embedding of `GTDSocketHandler.on_message` (lgtd/provider/daemon.py):
every message first passes through `authenticate`; on
`AuthenticationError` the handler replies `bad_credentials` and does
nothing else; otherwise it dispatches on the `msg` field — acknowledge the
auth response, render and send state, or push the submitted commands. -/
def on_message (hmacFn : String → String → List Nat) (now : Nat)
    (h : Handler) (m : Msg) : Handler × List Effect :=
  let r := authenticate hmacFn now h m.mac
  if r.2.1 = false then (r.1, [Effect.wrote bad_credentials_msg])
  else if m.msg = "auth_response" then (r.1, [Effect.wrote authenticated_msg])
  else if m.msg = "request_state" then (r.1, [Effect.wrote_state m.tag])
  else if m.msg = "push_commands" then (r.1, [Effect.pushed m.cmds])
  else (r.1, [])

/-- A MAC function stand-in with a fixed one-byte digest. -/
def ex_hmac : String → String → List Nat := fun _ _ => [0]

/-- An unauthenticated handler whose bucket is exhausted. -/
def ex_handler_empty : Handler := ⟨false, "n", "k", ⟨10, 3, 0, 0⟩⟩

/-- An unauthenticated handler whose bucket still holds one unit. -/
def ex_handler_ready : Handler := ⟨false, "n", "k", ⟨10, 3, 1, 0⟩⟩

/-- An auth response carrying a well-formed but wrong MAC. -/
def ex_msg_bad_mac : Msg := ⟨"auth_response", some "ff", "", []⟩

/-- A state request from a client that never authenticated. -/
def ex_msg_state : Msg := ⟨"request_state", none, "todo", []⟩

/-- Stdout writes of the per-key loop of `dump` (lgtd/tools/dbadm.py) for
one record, and whether any candidate key decrypted it. `dec` stands for
`CommandCipher(key).decrypt` — lgtd/lib/crypto.py is not in the snapshot —
returning `some` plaintext or `none` for an `InvalidTag` failure;
`extractT` stands for `CommandCipher.extract_time` composed with the
`'\x7b:.3f\x7d '` formatting, written per key before the decrypt attempt
when the time flag is set. -/
def dump_record (dec : String → String → String → Nat → Option String)
    (extractT : String → String) (timeFlag : Bool) :
    List String → String → String → Nat → List String × Bool
  | [], _, _, _ => ([], false)
  | k :: ks, line, app, off =>
    let rest := dump_record dec extractT timeFlag ks line app off
    let pre := if timeFlag then [extractT line] else []
    match dec k line app off with
    | some p => (pre ++ [p, "\n"] ++ rest.1, true)
    | none => (pre ++ rest.1, rest.2)

/-- The stderr diagnostic of `dump` for a record no key decrypts, naming
the writer (`app_id`) and offset of the offending record. -/
def diag_err (app : String) (off : Nat) (line : String) : List String :=
  ["unable to decrypt command with any password!\n",
   "use --force to ignore this problem\n",
   "the offending command is in app_id " ++ app ++ " at offset " ++ toString off ++ "\n",
   "its ciphertext reads:\n",
   line]

/-- The observable result of a `dump` run: stdout writes, stderr writes,
and the exit status (`some 1` when `exit(1)` was reached). -/
structure DumpResult where
  out : List String
  err : List String
  exit_code : Option Nat
deriving DecidableEq, Repr

/-- Embedding of `dump` (lgtd/tools/dbadm.py): over the full log, try every
candidate key on each record; a record that no key decrypts is diagnosed on
stderr and aborts with exit status 1, unless `--force`, which ignores it
and continues over the rest of the log. -/
def dump (dec : String → String → String → Nat → Option String)
    (extractT : String → String) (force timeFlag : Bool) (keys : List String) :
    List (String × String × Nat) → DumpResult
  | [] => ⟨[], [], none⟩
  | (line, app, off) :: rest =>
    let r0 := dump_record dec extractT timeFlag keys line app off
    if !r0.2 && !force then
      ⟨r0.1 ++ ["\n"], diag_err app off line, some 1⟩
    else
      let r := dump dec extractT force timeFlag keys rest
      ⟨r0.1 ++ r.out, r.err, r.exit_code⟩

/-- A decrypt stand-in: key "K" opens exactly the records whose line reads
"good". -/
def ex_dec : String → String → String → Nat → Option String :=
  fun k line _ _ => if k = "K" ∧ line = "good" then some "PLAIN" else none

/-- An extract-time stand-in with a fixed formatted value. -/
def ex_extract : String → String := fun _ => "0.000 "

/-- C1: `is_gapless` decides the three acceptance vectors of
`ServerTestCase.test_gapless` exactly as the test asserts: true, false,
false. -/
theorem c1_is_gapless_vectors :
    is_gapless [("ab", 139), ("Qi", 89)]
      [("9p", 0, "foo"), ("ab", 139, "foo"), ("Qi", 80, "foo")] = true
    ∧ is_gapless [("ab", 139), ("Qi", 89)]
      [("9p", 1, "foo"), ("ab", 139, "foo"), ("Qi", 80, "foo")] = false
    ∧ is_gapless [("ab", 139), ("Qi", 89)]
      [("9p", 0, "foo"), ("ab", 139, "foo"), ("Qi", 4880, "foo")] = false := by
  decide

theorem ltList_irrefl (l : List Char) : ltList l l = false := by
  induction l with
  | nil => rfl
  | cons a as ih => simp [ltList, lt_irrefl, ih]

/-- C2: for a schedule-marker tag `'$' ++ d` and reference date `r`,
`_display_tag` resolves to "tickler" exactly when `d` is strictly greater
than `r` in Python string order, and to "inbox" otherwise; in particular a
date equal to the reference date resolves to "inbox". -/
theorem c2_display_tag_schedule (d r : List Char) :
    display_tag ⟨'$' :: d⟩ ⟨r⟩ = (if ltList r d then "tickler" else "inbox")
    ∧ (display_tag ⟨'$' :: d⟩ ⟨r⟩ = "tickler" ↔ ltList r d = true)
    ∧ display_tag ⟨'$' :: d⟩ ⟨d⟩ = "inbox" := by
  refine ⟨rfl, ?_, ?_⟩
  · cases h : ltList r d with
    | true => simp [display_tag, h]
    | false => simp [display_tag, h]
  · simp [display_tag, ltList_irrefl]

/-- C10: an empty (falsy) tag always resolves to "inbox", for every
reference date. -/
theorem c10_display_tag_untagged (r : String) : display_tag "" r = "inbox" := rfl

theorem render_items_eq_filterMap (today active : String) (l : List (String × Item)) :
    render_items today active l
      = l.filterMap (fun p =>
          if display_tag p.2.tag today = active then some (render_item p.1 p.2) else none) := by
  induction l with
  | nil => rfl
  | cons p rest ih =>
    obtain ⟨id, it⟩ := p
    by_cases h : display_tag it.tag today = active
    · simp [render_items, h, ih]
    · simp [render_items, h, ih]

/-- C7: with the fixed tag ordering in place, an active tag not contained in
it makes `render_state` behave exactly as if it were called with "inbox":
the views coincide, the active tag index is 0, and the listed items are
exactly those whose resolved display tag is "inbox". -/
theorem c7_render_state_unknown_tag (st : State) (today tag : String)
    (hmem : tag ∉ st.tag_order)
    (hord : st.tag_order = default_tag_order) :
    render_state st today tag = render_state st today "inbox"
    ∧ (render_state st today tag).active_tag = 0
    ∧ (render_state st today tag).items
        = st.items.filterMap (fun p =>
            if display_tag p.2.tag today = "inbox" then some (render_item p.1 p.2) else none) := by
  rw [hord] at hmem
  have hin : "inbox" ∈ default_tag_order := by decide
  have hact : render_state st today tag = render_state st today "inbox" := by
    simp [render_state, hmem, hord, hin]
  refine ⟨hact, ?_, ?_⟩
  · rw [hact]
    simp [render_state, hord, hin, list_index, default_tag_order]
  · rw [hact]
    simp [render_state, hord, hin]
    exact render_items_eq_filterMap today "inbox" st.items

/-- Witness for C7 at a concrete state and the unknown active tag "nope". -/
theorem c7_render_state_unknown_tag_witness :
    render_state ex_state "2026-10-12" "nope" = render_state ex_state "2026-10-12" "inbox"
    ∧ (render_state ex_state "2026-10-12" "nope").active_tag = 0
    ∧ (render_state ex_state "2026-10-12" "nope").items
        = ex_state.items.filterMap (fun p =>
            if display_tag p.2.tag "2026-10-12" = "inbox" then some (render_item p.1 p.2) else none) :=
  c7_render_state_unknown_tag ex_state "2026-10-12" "nope" (by decide) rfl

/-- C8: `render_state` is pure over the projected state: the method call,
with the receiver state threaded explicitly, returns the state with the
tag ordering and the insertion-ordered item mapping (hence every item's
title and tag) unchanged. -/
theorem c8_render_state_pure (st : State) (today active0 : String) :
    (render_state_call st today active0).2.tag_order = st.tag_order
    ∧ (render_state_call st today active0).2.items = st.items :=
  ⟨rfl, rfl⟩

/-- C3 (amended): `notify` returns False exactly when the store's current
offset map equals the saved offsets, in which case it applies nothing and
leaves the manager unchanged; otherwise it applies every newly visible
command to the projected state in read order and returns True — True
reports new log data, not that the projected state actually differs. -/
theorem c3_notify_log_driven (db : DbModel) (sm : StateMgr) :
    ((notify db sm).2 = false ↔ dictEq db.get_offsets sm.offsets = true)
    ∧ (notify db sm).1.state
        = (if dictEq db.get_offsets sm.offsets then sm.state
           else (db.read_all sm.offsets).foldl (fun s e => apply_command e.1 s) sm.state)
    ∧ (dictEq db.get_offsets sm.offsets = true → notify db sm = (sm, false)) := by
  by_cases h : dictEq db.get_offsets sm.offsets = true
  · simp [notify, h]
  · simp [notify, h]

/-- Witness for C3 at the empty store: offsets agree, `notify` applies
nothing and returns False. -/
theorem c3_notify_log_driven_witness :
    notify ex_db_empty ex_mgr_empty = (ex_mgr_empty, false) :=
  (c3_notify_log_driven ex_db_empty ex_mgr_empty).2.2 rfl

/-- Counterexample to C3 as stated: on a store holding one newly visible
command that sets item "i"'s title to the title it already has, `notify`
returns True although the projected state is unchanged — so True is not
equivalent to "the projected State changed". -/
theorem c3_notify_counterexample :
    (notify ex_db ex_mgr).2 = true ∧ (notify ex_db ex_mgr).1.state = ex_mgr.state := by
  decide

theorem pushWrites_lb (cipher : String → String → Nat → String) (app_id : String) :
    ∀ (cs : List String) (pos : Nat) (x : Nat × String),
      x ∈ pushWrites cipher app_id pos cs → pos ≤ x.1 := by
  intro cs
  induction cs with
  | nil => intro pos x hx; simp [pushWrites] at hx
  | cons c cs ih =>
    intro pos x hx
    simp only [pushWrites, List.mem_cons] at hx
    cases hx with
    | inl h => subst h; exact Nat.le_refl pos
    | inr h => exact Nat.le_trans (Nat.le_add_right pos _) (ih _ x h)

theorem pushWrites_chain (cipher : String → String → Nat → String) (app_id : String) :
    ∀ (cs : List String) (pos : Nat),
      List.Chain' (fun a b => b.1 = a.1 + a.2.length) (pushWrites cipher app_id pos cs) := by
  intro cs
  induction cs with
  | nil => intro pos; simp [pushWrites]
  | cons c cs ih =>
    intro pos
    simp only [pushWrites]
    rw [List.chain'_cons']
    refine ⟨?_, ih _⟩
    intro y hy
    cases cs with
    | nil => simp [pushWrites] at hy
    | cons c2 cs2 =>
      simp only [pushWrites, List.head?_cons, Option.mem_def, Option.some.injEq] at hy
      subst hy
      rfl

theorem pushWrites_pairwise (cipher : String → String → Nat → String) (app_id : String)
    (h : ∀ c o, 0 < (cipher c app_id o).length) :
    ∀ (cs : List String) (pos : Nat),
      (pushWrites cipher app_id pos cs).Pairwise (fun a b => a.1 < b.1) := by
  intro cs
  induction cs with
  | nil => intro pos; simp [pushWrites]
  | cons c cs ih =>
    intro pos
    simp only [pushWrites]
    refine List.Pairwise.cons ?_ (ih _)
    intro x hx
    have h1 := pushWrites_lb cipher app_id cs (pos + (cipher c app_id pos).length) x hx
    have h2 := h c pos
    omega

/-- C5: a `push_commands` call acquires the log-store lock exactly once for
the whole call; every command is encrypted at the handle position
immediately before its write, so consecutive write offsets differ by the
previous line's length, and — every ciphertext line being non-empty — the
offsets passed to the cipher strictly increase across the list. -/
theorem c5_push_commands_offsets (cipher : String → String → Nat → String) (app_id : String)
    (pos0 : Nat) (commands : List String)
    (h : ∀ c o, 0 < (cipher c app_id o).length) :
    (push_commands cipher app_id pos0 commands).count PushEv.lock_acquire = 1
    ∧ List.Chain' (fun a b => b.1 = a.1 + a.2.length) (pushWrites cipher app_id pos0 commands)
    ∧ (pushWrites cipher app_id pos0 commands).Pairwise (fun a b => a.1 < b.1) := by
  refine ⟨?_, pushWrites_chain cipher app_id commands pos0,
    pushWrites_pairwise cipher app_id h commands pos0⟩
  have hnm : PushEv.lock_acquire
      ∉ (pushWrites cipher app_id pos0 commands).map (fun w => PushEv.write w.1 w.2) := by
    simp [List.mem_map]
  simp [push_commands, List.count_cons, List.count_append, List.count_eq_zero.mpr hnm]

/-- Witness for C5 with a concrete two-byte cipher and two commands. -/
theorem c5_push_commands_offsets_witness :
    (push_commands ex_cipher "A" 0 ["a", "b"]).count PushEv.lock_acquire = 1
    ∧ List.Chain' (fun a b => b.1 = a.1 + a.2.length) (pushWrites ex_cipher "A" 0 ["a", "b"])
    ∧ (pushWrites ex_cipher "A" 0 ["a", "b"]).Pairwise (fun a b => a.1 < b.1) :=
  c5_push_commands_offsets ex_cipher "A" 0 ["a", "b"]
    (fun c o => by unfold ex_cipher; decide)

/-- C4: on a not-yet-authenticated connection, every authentication attempt
consumes from the leaky bucket first — the step trace is either just the
consumption, or the consumption followed by the MAC check; an empty bucket
fails closed with no MAC check; and any authentication failure, rate-limit
or wrong MAC alike, makes `on_message` send the identical
`bad_credentials` reply. -/
theorem c4_rate_limit_before_mac (f : String → String → List Nat) (now : Nat)
    (h : Handler) (m : Msg) (hA : h.authenticated = false) :
    ((authenticate f now h m.mac).2.2 = [AuthEv.consume]
      ∨ (authenticate f now h m.mac).2.2 = [AuthEv.consume, AuthEv.mac_check])
    ∧ (h.bucket.consume now = none →
        authenticate f now h m.mac = (h, false, [AuthEv.consume]))
    ∧ ((authenticate f now h m.mac).2.1 = false →
        (on_message f now h m).2 = [Effect.wrote bad_credentials_msg]) := by
  refine ⟨?_, ?_, ?_⟩
  · cases hb : h.bucket.consume now with
    | none => simp [authenticate, hA, hb]
    | some b =>
      cases hm : m.mac with
      | none => simp [authenticate, hA, hb, hm]
      | some s =>
        cases hx : hexDecode s.data with
        | none => simp [authenticate, hA, hb, hm, hx]
        | some a => simp [authenticate, hA, hb, hm, hx]
  · intro hb
    simp [authenticate, hA, hb]
  · intro hf
    simp [on_message, hf]

/-- Witness for C4: with the exhausted bucket the attempt fails with only
the consumption step and the `bad_credentials` reply; with a unit left and
a wrong MAC the reply is the same string. -/
theorem c4_rate_limit_before_mac_witness :
    (on_message ex_hmac 0 ex_handler_empty ex_msg_bad_mac).2
        = [Effect.wrote bad_credentials_msg]
    ∧ (on_message ex_hmac 0 ex_handler_ready ex_msg_bad_mac).2
        = [Effect.wrote bad_credentials_msg]
    ∧ authenticate ex_hmac 0 ex_handler_empty ex_msg_bad_mac.mac
        = (ex_handler_empty, false, [AuthEv.consume]) :=
  ⟨(c4_rate_limit_before_mac ex_hmac 0 ex_handler_empty ex_msg_bad_mac rfl).2.2 rfl,
   (c4_rate_limit_before_mac ex_hmac 0 ex_handler_ready ex_msg_bad_mac rfl).2.2 rfl,
   (c4_rate_limit_before_mac ex_hmac 0 ex_handler_empty ex_msg_bad_mac rfl).2.1 rfl⟩

theorem authenticate_ok_authenticated (f : String → String → List Nat) (now : Nat)
    (h : Handler) (mac : Option String) :
    (authenticate f now h mac).2.1 = true → (authenticate f now h mac).1.authenticated = true := by
  by_cases hA : h.authenticated
  · simp [authenticate, hA]
  · cases hb : h.bucket.consume now with
    | none => simp [authenticate, hA, hb]
    | some b =>
      cases hm : mac with
      | none => simp [authenticate, hA, hb, hm]
      | some s =>
        cases hx : hexDecode s.data with
        | none => simp [authenticate, hA, hb, hm, hx]
        | some a =>
          intro hok
          simp [authenticate, hA, hb, hm, hx] at hok ⊢
          exact hok

/-- C9: every incoming message first passes through `authenticate`; when it
fails the handler replies `bad_credentials` and performs nothing else, and
a rendered-state reply or a command push can only appear in the effects of
a call whose resulting connection is authenticated. -/
theorem c9_on_message_requires_auth (f : String → String → List Nat) (now : Nat)
    (h : Handler) (m : Msg) :
    ((authenticate f now h m.mac).2.1 = false →
      on_message f now h m = ((authenticate f now h m.mac).1, [Effect.wrote bad_credentials_msg]))
    ∧ (∀ t, Effect.wrote_state t ∈ (on_message f now h m).2 →
        (on_message f now h m).1.authenticated = true)
    ∧ (∀ cs, Effect.pushed cs ∈ (on_message f now h m).2 →
        (on_message f now h m).1.authenticated = true) := by
  by_cases hf : (authenticate f now h m.mac).2.1 = false
  · refine ⟨fun _ => by simp [on_message, hf], ?_, ?_⟩
    · intro t ht
      simp [on_message, hf] at ht
    · intro cs ht
      simp [on_message, hf] at ht
  · have hok : (authenticate f now h m.mac).2.1 = true := by
      revert hf
      cases (authenticate f now h m.mac).2.1 <;> simp
    have hauth := authenticate_ok_authenticated f now h m.mac hok
    refine ⟨fun hc => absurd hc hf, ?_, ?_⟩
    · intro t ht
      by_cases h1 : m.msg = "auth_response"
      · simp [on_message, hok, h1] at ht
      · by_cases h2 : m.msg = "request_state"
        · simpa [on_message, hok, h1, h2] using hauth
        · by_cases h3 : m.msg = "push_commands"
          · simp [on_message, hok, h1, h2, h3] at ht
          · simp [on_message, hok, h1, h2, h3] at ht
    · intro cs ht
      by_cases h1 : m.msg = "auth_response"
      · simp [on_message, hok, h1] at ht
      · by_cases h2 : m.msg = "request_state"
        · simp [on_message, hok, h1, h2] at ht
        · by_cases h3 : m.msg = "push_commands"
          · simpa [on_message, hok, h1, h2, h3] using hauth
          · simp [on_message, hok, h1, h2, h3] at ht

/-- Witness for C9: a state request from a never-authenticated client with
no MAC and an exhausted bucket gets only the `bad_credentials` reply. -/
theorem c9_on_message_requires_auth_witness :
    on_message ex_hmac 0 ex_handler_empty ex_msg_state
      = (ex_handler_empty, [Effect.wrote bad_credentials_msg]) :=
  (c9_on_message_requires_auth ex_hmac 0 ex_handler_empty ex_msg_state).1 rfl

theorem dump_record_no_out (dec : String → String → String → Nat → Option String)
    (extractT : String → String) :
    ∀ (keys : List String) (line app : String) (off : Nat),
      (dump_record dec extractT false keys line app off).2 = false →
      (dump_record dec extractT false keys line app off).1 = [] := by
  intro keys
  induction keys with
  | nil => intro line app off _; rfl
  | cons k ks ih =>
    intro line app off hd
    simp only [dump_record] at hd ⊢
    cases hk : dec k line app off with
    | some p => simp [hk] at hd
    | none =>
      simp only [hk] at hd ⊢
      simpa using ih line app off hd

theorem dump_ok_prefix (dec : String → String → String → Nat → Option String)
    (extractT : String → String) (timeFlag : Bool) (keys : List String) :
    ∀ (pre rest : List (String × String × Nat)),
      (∀ e ∈ pre, (dump_record dec extractT timeFlag keys e.1 e.2.1 e.2.2).2 = true) →
      dump dec extractT false timeFlag keys (pre ++ rest)
        = ⟨(pre.map (fun e => (dump_record dec extractT timeFlag keys e.1 e.2.1 e.2.2).1)).flatten
            ++ (dump dec extractT false timeFlag keys rest).out,
           (dump dec extractT false timeFlag keys rest).err,
           (dump dec extractT false timeFlag keys rest).exit_code⟩ := by
  intro pre
  induction pre with
  | nil => intro rest _; simp
  | cons e pre ih =>
    intro rest hpre
    obtain ⟨line, app, off⟩ := e
    have he := hpre (line, app, off) (List.mem_cons_self _ _)
    simp only at he
    simp only [List.cons_append, dump, he, Bool.not_true, Bool.false_and, Bool.if_false_left]
    have := ih rest (fun e hmem => hpre e (List.mem_cons_of_mem _ hmem))
    simp [this, he]

theorem dump_force_total (dec : String → String → String → Nat → Option String)
    (extractT : String → String) (timeFlag : Bool) (keys : List String) :
    ∀ (l : List (String × String × Nat)),
      dump dec extractT true timeFlag keys l
        = ⟨(l.map (fun e => (dump_record dec extractT timeFlag keys e.1 e.2.1 e.2.2).1)).flatten,
           [], none⟩ := by
  intro l
  induction l with
  | nil => rfl
  | cons e rest ih =>
    obtain ⟨line, app, off⟩ := e
    simp [dump, ih]

/-- C6: a record of the full log that no candidate key decrypts, reached
after records that do decrypt: without `--force`, `dump` stops there —
ignoring everything after it — with exit status 1 and a stderr diagnostic
naming the record's writer (`app_id`) and offset; with `--force` the record
contributes nothing and the rest of the log is still processed. -/
theorem c6_dump_undecryptable (dec : String → String → String → Nat → Option String)
    (extractT : String → String) (keys : List String)
    (pre post : List (String × String × Nat)) (line app : String) (off : Nat)
    (hpre : ∀ e ∈ pre, (dump_record dec extractT false keys e.1 e.2.1 e.2.2).2 = true)
    (he : (dump_record dec extractT false keys line app off).2 = false) :
    (dump dec extractT false false keys (pre ++ (line, app, off) :: post)).exit_code = some 1
    ∧ (dump dec extractT false false keys (pre ++ (line, app, off) :: post)).err
        = diag_err app off line
    ∧ dump dec extractT false false keys (pre ++ (line, app, off) :: post)
        = dump dec extractT false false keys (pre ++ [(line, app, off)])
    ∧ dump dec extractT true false keys (pre ++ (line, app, off) :: post)
        = ⟨(dump dec extractT true false keys pre).out
            ++ (dump dec extractT true false keys post).out, [], none⟩ := by
  have hstop : ∀ rest, dump dec extractT false false keys ((line, app, off) :: rest)
      = ⟨(dump_record dec extractT false keys line app off).1 ++ ["\n"],
         diag_err app off line, some 1⟩ := by
    intro rest
    simp [dump, he]
  have h1 := dump_ok_prefix dec extractT false keys pre ((line, app, off) :: post) hpre
  have h2 := dump_ok_prefix dec extractT false keys pre [(line, app, off)] hpre
  refine ⟨?_, ?_, ?_, ?_⟩
  · rw [h1, hstop]
  · rw [h1, hstop]
  · rw [h1, h2, hstop, hstop]
  · have hnull := dump_record_no_out dec extractT keys line app off he
    rw [dump_force_total, dump_force_total, dump_force_total]
    simp [hnull]

/-- Witness for C6: one good record, then a record key "K" cannot open,
then another good record. -/
theorem c6_dump_undecryptable_witness :
    (dump ex_dec ex_extract false false ["K"]
        ([("good", "A", 0)] ++ ("bad", "B", 7) :: [("good", "A", 10)])).exit_code = some 1
    ∧ (dump ex_dec ex_extract false false ["K"]
        ([("good", "A", 0)] ++ ("bad", "B", 7) :: [("good", "A", 10)])).err
        = diag_err "B" 7 "bad"
    ∧ dump ex_dec ex_extract false false ["K"]
        ([("good", "A", 0)] ++ ("bad", "B", 7) :: [("good", "A", 10)])
        = dump ex_dec ex_extract false false ["K"] ([("good", "A", 0)] ++ [("bad", "B", 7)])
    ∧ dump ex_dec ex_extract true false ["K"]
        ([("good", "A", 0)] ++ ("bad", "B", 7) :: [("good", "A", 10)])
        = ⟨(dump ex_dec ex_extract true false ["K"] [("good", "A", 0)]).out
            ++ (dump ex_dec ex_extract true false ["K"] [("good", "A", 10)]).out, [], none⟩ :=
  c6_dump_undecryptable ex_dec ex_extract ["K"] [("good", "A", 0)] [("good", "A", 10)]
    "bad" "B" 7 (by decide) (by decide)
